import Mathlib

/-
Verification of the listing-visual-matcher application (src/app.py).

The program is shallowly embedded: Python strings are modelled as lists of
characters (`Str`), Python dicts as association lists with first-match lookup
and in-place overwrite, the pandas table as a header plus a list of rows of
string cells, and the Streamlit session state as explicit values threaded
through the definitions.  Each definition is translated from the corresponding
place in src/app.py, cited in its doc comment.
-/

/-- Python strings, modelled as lists of characters. -/
abbrev Str := List Char

/-- The ASCII whitespace characters removed by Python's `str.strip()`
(space, tab, newline, carriage return, vertical tab, form feed). -/
def pyWhitespace (c : Char) : Bool :=
  c = ' ' || c = '\t' || c = '\n' || c = '\r' || c = '\x0b' || c = '\x0c'

/-- Python `str.strip()`: drop leading and trailing whitespace. -/
def pyStrip (s : Str) : Str :=
  List.rdropWhile pyWhitespace (s.dropWhile pyWhitespace)

/-- Lookup in a Python dict modelled as an association list:
`dictGet d k` is `d.get(k)` (first matching key wins; keys are unique in a
dict, so this is exact). -/
def dictGet {α β : Type} [DecidableEq α] : List (α × β) → α → Option β
  | [], _ => none
  | q :: rest, k => if q.1 = k then some q.2 else dictGet rest k

/-- Python dict item assignment `d[k] = v`: overwrite the (unique) existing
entry in place, else append a new entry (dicts preserve insertion order). -/
def dictSet {α β : Type} [DecidableEq α] : List (α × β) → α → β → List (α × β)
  | [], k, v => [(k, v)]
  | q :: rest, k, v => if q.1 = k then (k, v) :: rest else q :: dictSet rest k v

/-- The ASCII upper-to-lower case table: Python's `str.lower()` restricted to
the basic latin letters, which is all the program's marketplace codes use. -/
def asciiLowerTable : List (Char × Char) :=
  [('A', 'a'), ('B', 'b'), ('C', 'c'), ('D', 'd'), ('E', 'e'), ('F', 'f'),
   ('G', 'g'), ('H', 'h'), ('I', 'i'), ('J', 'j'), ('K', 'k'), ('L', 'l'),
   ('M', 'm'), ('N', 'n'), ('O', 'o'), ('P', 'p'), ('Q', 'q'), ('R', 'r'),
   ('S', 's'), ('T', 't'), ('U', 'u'), ('V', 'v'), ('W', 'w'), ('X', 'x'),
   ('Y', 'y'), ('Z', 'z')]

/-- Lower-case one character (ASCII model of Python lowering). -/
def lowerChar (c : Char) : Char := (dictGet asciiLowerTable c).getD c

/-- Python `str.lower()` (ASCII model). -/
def pyLower (s : Str) : Str := s.map lowerChar

/-- Upper-case one character (ASCII model). -/
def upperChar (c : Char) : Char :=
  (dictGet (asciiLowerTable.map (fun q => (q.2, q.1))) c).getD c

/-- Python `str.upper()` (ASCII model). -/
def pyUpper (s : Str) : Str := s.map upperChar

/-- The `MARKETPLACE_DOMAIN` dict of src/app.py, lines 48-58. -/
def MARKETPLACE_DOMAIN : List (Str × Str) :=
  [("it".toList, "amazon.it".toList),
   ("de".toList, "amazon.de".toList),
   ("fr".toList, "amazon.fr".toList),
   ("es".toList, "amazon.es".toList),
   ("uk".toList, "amazon.co.uk".toList),
   ("us".toList, "amazon.com".toList),
   ("nl".toList, "amazon.nl".toList),
   ("se".toList, "amazon.se".toList),
   ("pl".toList, "amazon.pl".toList)]

/-- `build_amazon_dp_url` of src/app.py, lines 60-66:
strip the ASIN, strip and lower-case the marketplace code, look the code up in
`MARKETPLACE_DOMAIN` (default `""`), return `""` if the ASIN or the domain is
empty, else `f"https://www.{domain}/dp/{asin}"`. -/
def build_amazon_dp_url (asin marketplace : Str) : Str :=
  let a := pyStrip asin
  let mp := pyLower (pyStrip marketplace)
  let domain := (dictGet MARKETPLACE_DOMAIN mp).getD []
  if a = [] ∨ domain = [] then []
  else "https://www.".toList ++ domain ++ "/dp/".toList ++ a

/-- `keepa_domain_code` of src/app.py, lines 68-70. -/
def keepa_domain_code (marketplace : Str) : Str := pyUpper (pyStrip marketplace)

/-- `keepa_image_to_cdn_url` of src/app.py, lines 72-83:
strip the token; `""` stays `""`; append `".jpg"` when the token has no dot;
prefix the fixed Amazon image CDN base. -/
def keepa_image_to_cdn_url (image_id : Str) : Str :=
  let img := pyStrip image_id
  if img = [] then []
  else
    let img2 := if '.' ∈ img then img else img ++ ".jpg".toList
    "https://m.media-amazon.com/images/I/".toList ++ img2

/-- The session match map `st.session_state.match_map` of src/app.py, line 200:
a dict from row index to boolean. -/
abbrev MatchState := List (Nat × Bool)

/-- `get_match` of src/app.py, lines 202-203:
`bool(st.session_state.match_map.get(i, False))`. -/
def get_match (m : MatchState) (i : Nat) : Bool := (dictGet m i).getD false

/-- `set_match` of src/app.py, lines 205-206: `st.session_state.match_map[i] = bool(v)`. -/
def set_match (m : MatchState) (i : Nat) (v : Bool) : MatchState := dictSet m i v

/-- The initial match map of src/app.py, line 200: an empty dict. -/
def empty_match : MatchState := []

/-- The "Reset MATCH" button of src/app.py, lines 222-224:
`st.session_state.match_map = {}` discards the prior map entirely. -/
def reset_match (_ : MatchState) : MatchState := []

/-- A session history of `set_match` calls applied to a fresh match map. -/
def apply_sets (ops : List (Nat × Bool)) : MatchState :=
  ops.foldl (fun m q => set_match m q.1 q.2) empty_match

/-- `total_pages` of src/app.py, line 212:
`max(1, (len(df) + page_size - 1) // page_size)`. -/
def total_pages (rowCount pageSize : Nat) : Nat :=
  max 1 ((rowCount + pageSize - 1) / pageSize)

/-- Reference definition of the ceiling of `r / p` on naturals; for `0 < p` it
is the least `k` with `r ≤ p * k` (`ceil_div_le_iff` below). -/
def ceil_div (r p : Nat) : Nat := (r + p - 1) / p

/-- `start` of src/app.py, line 229: `(page - 1) * page_size`. -/
def window_start (pageSize page : Nat) : Nat := (page - 1) * pageSize

/-- `end` of src/app.py, line 230: `min(len(df), start + page_size)`;
the page window is `page_df = df.iloc[start:end]` (line 231). -/
def window_end (rowCount pageSize page : Nat) : Nat :=
  min rowCount (window_start pageSize page + pageSize)

/-- One product record returned by the Keepa API: the fields
`p.get("asin")` and `p.get("imagesCSV")` read in src/app.py, lines 127-130
(`.get` on a dict may be absent, hence `Option`). -/
structure KeepaProduct where
  asin : Option Str
  imagesCSV : Option Str

/-- `images_csv.split(",")[0]` of src/app.py, line 132: the prefix of the
string before the first comma. -/
def firstCsvField (s : Str) : Str := s.takeWhile (fun c => c ≠ ',')

/-- The cleaning comprehension of src/app.py, line 110:
`[a.strip() for a in asins if a and str(a).strip()]`. -/
def clean_asins (asins : List Str) : List Str :=
  (asins.filter (fun a => !a.isEmpty && !(pyStrip a).isEmpty)).map pyStrip

/-- `keepa_fetch_first_images` of src/app.py, lines 104-134.  The external
collaborators are abstracted: `client` is the result of `get_keepa_client()`
(`none` when the key is missing or the client constructor failed, src/app.py
lines 93-101), and `query` is `api.query` (an `Except` capturing that the call
either raises or returns a possibly-`None` product list).  Every failure path
of the source is represented; the function itself is total, so it never
raises. -/
def keepa_fetch_first_images (asins : List Str) (marketplace : Str)
    (client : Option Unit)
    (query : List Str → Str → Except Unit (Option (List KeepaProduct))) :
    List (Str × Str) :=
  let as := clean_asins asins
  if as = [] then []
  else
    match client with
    | none => as.map (fun a => (a, []))
    | some _ =>
      match query as (keepa_domain_code marketplace) with
      | .error _ => as.map (fun a => (a, []))
      | .ok products =>
        (products.getD []).foldl
          (fun out p =>
            let asin := pyStrip (p.asin.getD [])
            if asin = [] then out
            else
              let images_csv := pyStrip (p.imagesCSV.getD [])
              if images_csv = [] then out
              else dictSet out asin
                (keepa_image_to_cdn_url (pyStrip (firstCsvField images_csv))))
          (as.map (fun a => (a, [])))

/-- The in-memory table parsed from the upload: pandas DataFrame with a header
(column names) and rows of untyped cells, all modelled as strings. -/
structure Table where
  header : List Str
  rows : List (List Str)
deriving DecidableEq

/-- The uploaded file object: a byte buffer with a read position. -/
structure ByteStream where
  data : List Nat
  pos : Nat

/-- Reading the stream to its end (what `pd.read_csv(uploaded)` consumes):
yields the bytes from the current position and leaves the position at the
end. -/
def stream_read (s : ByteStream) : List Nat × ByteStream :=
  (s.data.drop s.pos, ByteStream.mk s.data s.data.length)

/-- `uploaded.seek(0)` of src/app.py, line 149. -/
def stream_seek0 (s : ByteStream) : ByteStream := ByteStream.mk s.data 0

/-- The robust read of src/app.py, lines 146-150:
`try: df = pd.read_csv(uploaded) except Exception: uploaded.seek(0);
df = pd.read_csv(uploaded, sep=";")`.  The two pandas parses are abstracted
as functions from the consumed bytes to `Except`; an uncaught failure of the
second parse is the loader's own failure. -/
def load_table (parseComma parseSemi : List Nat → Except Unit Table)
    (s : ByteStream) : Except Unit Table :=
  let r := stream_read s
  match parseComma r.1 with
  | .ok t => .ok t
  | .error _ => parseSemi (stream_read (stream_seek0 r.2)).1

/-- How pandas' `to_csv` renders the Python booleans stored in the MATCH
column. -/
def pyBoolStr (b : Bool) : Str := if b then "True".toList else "False".toList

/-- The MATCH column of src/app.py, line 306:
`[bool(st.session_state.match_map.get(i, False)) for i in range(len(out))]`. -/
def match_column (m : MatchState) (n : Nat) : List Bool :=
  (List.range n).map (get_match m)

/-- `out` of src/app.py, lines 305-306: a copy of the table with the MATCH
column assigned (pandas aligns the python list with the rows by position). -/
def export_table (t : Table) (m : MatchState) : Table :=
  Table.mk (t.header ++ ["MATCH".toList])
    ((t.rows.zip (match_column m t.rows.length)).map
      (fun q => q.1 ++ [pyBoolStr q.2]))

/-- Does a CSV field need quoting under pandas' default QUOTE_MINIMAL? -/
def csvNeedsQuote (cell : Str) : Bool :=
  cell.any (fun c => c = ',' || c = '"' || c = '\n' || c = '\r')

/-- Render one CSV field: quote and double embedded quotes when needed. -/
def csvField (cell : Str) : Str :=
  if csvNeedsQuote cell then
    '"' :: (cell.flatMap (fun c => if c = '"' then ['"', '"'] else [c])) ++ ['"']
  else cell

/-- Render one CSV record: comma-separated fields plus a line feed. -/
def csvLine (cells : List Str) : Str :=
  List.intercalate ",".toList (cells.map csvField) ++ ['\n']

/-- `out.to_csv(index=False)` of src/app.py, line 307: the header record then
one record per row, comma-delimited regardless of the input's delimiter. -/
def to_csv (t : Table) : Str :=
  csvLine t.header ++ (t.rows.map csvLine).flatten

/-- UTF-8 encoding of one character (standard 1-4 byte layout). -/
def utf8Char (c : Char) : List Nat :=
  let n := c.toNat
  if n < 128 then [n]
  else if n < 2048 then [192 + n / 64, 128 + n % 64]
  else if n < 65536 then [224 + n / 4096, 128 + (n / 64) % 64, 128 + n % 64]
  else [240 + n / 262144, 128 + (n / 4096) % 64, 128 + (n / 64) % 64,
        128 + n % 64]

/-- `csv_bytes` of src/app.py, line 307:
`out.to_csv(index=False).encode("utf-8")`. -/
def csv_bytes (t : Table) (m : MatchState) : List Nat :=
  (to_csv (export_table t m)).flatMap utf8Char

/-
Helper lemmas about the dict model.
-/

lemma dictGet_dictSet_self {α β : Type} [DecidableEq α]
    (d : List (α × β)) (k : α) (v : β) :
    dictGet (dictSet d k v) k = some v := by
  induction d with
  | nil => simp [dictSet, dictGet]
  | cons q rest ih =>
    by_cases h : q.1 = k
    · simp [dictSet, dictGet, h]
    · simp [dictSet, dictGet, h, ih]

lemma dictGet_dictSet_ne {α β : Type} [DecidableEq α]
    (d : List (α × β)) {k k' : α} (v : β) (h : k' ≠ k) :
    dictGet (dictSet d k v) k' = dictGet d k' := by
  induction d with
  | nil => simp [dictSet, dictGet, Ne.symm h]
  | cons q rest ih =>
    by_cases hq : q.1 = k
    · rw [show dictSet (q :: rest) k v = (k, v) :: rest from if_pos hq]
      show (if k = k' then some v else dictGet rest k')
          = if q.1 = k' then some q.2 else dictGet rest k'
      rw [if_neg (Ne.symm h), if_neg (by rw [hq]; exact Ne.symm h)]
    · rw [show dictSet (q :: rest) k v = q :: dictSet rest k v from if_neg hq]
      show (if q.1 = k' then some q.2 else dictGet (dictSet rest k v) k')
          = if q.1 = k' then some q.2 else dictGet rest k'
      rw [ih]

lemma dictGet_mem {α β : Type} [DecidableEq α]
    {d : List (α × β)} {k : α} {v : β} (h : dictGet d k = some v) :
    (k, v) ∈ d := by
  induction d with
  | nil => simp [dictGet] at h
  | cons q rest ih =>
    by_cases hq : q.1 = k
    · simp only [dictGet, if_pos hq, Option.some.injEq] at h
      have : q = (k, v) := by
        obtain ⟨a, b⟩ := q
        simp only [Prod.mk.injEq]
        exact ⟨hq, h⟩
      rw [← this]
      exact List.mem_cons_self _ _
    · simp only [dictGet, if_neg hq] at h
      exact List.mem_cons_of_mem _ (ih h)

lemma dictGet_eq_none_of_unset {α β : Type} [DecidableEq α]
    {d : List (α × β)} {k : α} (h : k ∉ d.map Prod.fst) :
    dictGet d k = none := by
  induction d with
  | nil => simp [dictGet]
  | cons q rest ih =>
    simp only [List.map_cons, List.mem_cons] at h
    push_neg at h
    simp [dictGet, Ne.symm h.1, ih h.2]

lemma dictGet_map_pair {α β : Type} [DecidableEq α]
    {l : List α} {k : α} (v : β) (h : k ∈ l) :
    dictGet (l.map (fun a => (a, v))) k = some v := by
  induction l with
  | nil => simp at h
  | cons b rest ih =>
    by_cases hb : b = k
    · simp [dictGet, hb]
    · rcases List.mem_cons.mp h with h' | h'
      · exact absurd h'.symm hb
      · simp [dictGet, hb, ih h']

/-
Helper lemmas about pagination arithmetic.
-/

/-- `ceil_div r p` really is the ceiling of `r / p`: it is the least `k` with
`r ≤ p * k`. -/
lemma ceil_div_le_iff (r p k : Nat) (hp : 0 < p) :
    ceil_div r p ≤ k ↔ r ≤ p * k := by
  unfold ceil_div
  rw [Nat.div_le_iff_le_mul_add_pred hp]
  generalize p * k = K
  omega

/-- Claim C5: reading an index never set yields `false`; `set` then `get` on
the same index yields the just-set value; after a reset every index reads
`false` regardless of prior values. -/
theorem match_state_semantics :
    ∀ (m : MatchState) (i : Nat) (v : Bool),
      get_match (set_match m i v) i = v ∧
      (∀ (ops : List (Nat × Bool)) (j : Nat), j ∉ ops.map Prod.fst →
        get_match (apply_sets ops) j = false) ∧
      (∀ j : Nat, get_match (reset_match m) j = false) := by
  have unset : ∀ (ops : List (Nat × Bool)) (m : MatchState) (j : Nat),
      j ∉ ops.map Prod.fst → get_match m j = false →
      get_match (ops.foldl (fun m q => set_match m q.1 q.2) m) j = false := by
    intro ops
    induction ops with
    | nil => intro m j _ hm; exact hm
    | cons q rest ih =>
      intro m j hj hm
      simp only [List.map_cons, List.mem_cons] at hj
      push_neg at hj
      simp only [List.foldl_cons]
      refine ih _ j hj.2 ?_
      unfold get_match set_match
      rw [dictGet_dictSet_ne _ _ hj.1]
      exact hm
  intro m i v
  refine ⟨?_, ?_, ?_⟩
  · unfold get_match set_match
    rw [dictGet_dictSet_self]
    rfl
  · intro ops j hj
    exact unset ops empty_match j hj rfl
  · intro j
    rfl

/-- Witness for C5 at concrete inputs, with a nonempty prior map for the
reset clause. -/
theorem match_state_semantics_witness :
    get_match (set_match [(0, true)] 2 true) 2 = true ∧
    get_match (apply_sets [(0, true), (2, false)]) 1 = false ∧
    get_match (reset_match [(0, true)]) 5 = false := by
  obtain ⟨h1, h2, h3⟩ := match_state_semantics [(0, true)] 2 true
  exact ⟨h1, h2 [(0, true), (2, false)] 1 (by decide), h3 5⟩

/-- Claim C3, counterexample: for `R = 0`, `P = 1` the code computes one page
while `ceil(R/P) = 0`, so "page count equals ceil(R/P)" fails at `R = 0`
(`ceil_div` is the ceiling of the division by `ceil_div_le_iff`). -/
theorem total_pages_ceil_counterexample :
    total_pages 0 1 = 1 ∧ ceil_div 0 1 = 0 ∧
    total_pages 0 1 ≠ ceil_div 0 1 := by decide

/-- Claim C3, amended: for every `R ≥ 0` and `P > 0` the computed page count
is `max 1 (ceil(R/P))` and hence at least `1`; in particular it equals
`ceil(R/P)` whenever `R > 0`, and equals `1` when `R = 0`. -/
theorem total_pages_eq_max_one_ceil (R P : Nat) (hP : 0 < P) :
    total_pages R P = max 1 (ceil_div R P) ∧
    1 ≤ total_pages R P ∧
    (0 < R → total_pages R P = ceil_div R P) ∧
    (R = 0 → total_pages R P = 1) := by
  refine ⟨rfl, le_max_left _ _, ?_, ?_⟩
  · intro hR
    have h1 : 1 ≤ ceil_div R P := by
      have := (ceil_div_le_iff R P 0 hP).mpr
      by_contra hlt
      have h0 : ceil_div R P = 0 := by omega
      have := (ceil_div_le_iff R P 0 hP).mp (le_of_eq h0)
      omega
    unfold total_pages ceil_div
    unfold ceil_div at h1
    omega
  · intro hR
    subst hR
    unfold total_pages
    have : (0 + P - 1) / P = 0 := Nat.div_eq_of_lt (by omega)
    omega

/-- Witness for C3 (amended) at `R = 5`, `P = 2`. -/
theorem total_pages_eq_max_one_ceil_witness :
    total_pages 5 2 = max 1 (ceil_div 5 2) ∧
    1 ≤ total_pages 5 2 ∧
    (0 < 5 → total_pages 5 2 = ceil_div 5 2) ∧
    (5 = 0 → total_pages 5 2 = 1) :=
  total_pages_eq_max_one_ceil 5 2 (by decide)

/-- Claim C4: for pages `1..pageCount` the window is
`[(page-1)*P, min R ((page-1)*P + P))`, and every row index `i < R` lies in
the window of exactly one in-range page (so the windows cover `0..R-1` with no
overlap and no gaps). -/
theorem pagination_windows_partition (R P : Nat) (hP : 0 < P) :
    (∀ page, window_start P page = (page - 1) * P ∧
      window_end R P page = min R ((page - 1) * P + P)) ∧
    ∀ i, i < R →
      ∃! p, (1 ≤ p ∧ p ≤ total_pages R P) ∧
        window_start P p ≤ i ∧ i < window_end R P p := by
  refine ⟨fun page => ⟨rfl, rfl⟩, ?_⟩
  intro i hi
  have h1 : P * (i / P) + i % P = i := Nat.div_add_mod i P
  have h2 : i % P < P := Nat.mod_lt i hP
  have h3 : i / P * P ≤ i := Nat.div_mul_le_self i P
  have h5 : i < i / P * P + P := by
    have h6 := Nat.add_lt_add_left h2 (P * (i / P))
    rw [h1] at h6
    rwa [Nat.mul_comm P (i / P)] at h6
  refine ⟨i / P + 1, ⟨⟨Nat.le_add_left 1 _, ?_⟩, ?_, ?_⟩, ?_⟩
  · have h4 : i / P + 1 ≤ (R + P - 1) / P := by
      rw [Nat.le_div_iff_mul_le hP, Nat.add_mul, Nat.one_mul]
      calc i / P * P + P ≤ i + P := Nat.add_le_add_right h3 P
        _ ≤ R + P - 1 := by omega
    exact le_trans h4 (le_max_right 1 _)
  · show window_start P (i / P + 1) ≤ i
    simp only [window_start, Nat.add_sub_cancel]
    exact h3
  · show i < window_end R P (i / P + 1)
    simp only [window_end, window_start, Nat.add_sub_cancel]
    exact lt_min hi h5
  · intro q hq
    obtain ⟨⟨hq1, _⟩, hqs, hqe⟩ := hq
    have hqe' : i < (q - 1) * P + P := by
      have := lt_min_iff.mp hqe
      simpa [window_end, window_start] using this.2
    have hqs' : (q - 1) * P ≤ i := hqs
    have hdiv : i / P = q - 1 :=
      Nat.div_eq_of_lt_le hqs' (by rw [Nat.add_mul, Nat.one_mul]; exact hqe')
    rw [hdiv]
    omega

/-- Witness for C4 at `R = 5`, `P = 2`, `i = 4`. -/
theorem pagination_windows_partition_witness :
    ∃! p, (1 ≤ p ∧ p ≤ total_pages 5 2) ∧
      window_start 2 p ≤ 4 ∧ 4 < window_end 5 2 p :=
  (pagination_windows_partition 5 2 (by decide)).2 4 (by decide)

/-- Every domain value of the marketplace table is a nonempty string. -/
lemma marketplace_domain_values_ne_nil :
    ∀ q ∈ MARKETPLACE_DOMAIN, q.2 ≠ ([] : Str) := by decide

/-- Claim C6: `build_amazon_dp_url` trims its inputs and returns `""` when the
trimmed ASIN is empty or the (trimmed, lower-cased) marketplace code is not a
key of `MARKETPLACE_DOMAIN`; otherwise it returns
`https://www.<domain>/dp/<asin>`; in particular `("B001", "it")` yields
`https://www.amazon.it/dp/B001`. -/
theorem build_url_cases :
    (∀ asin mp,
      ((pyStrip asin = [] ∨
          dictGet MARKETPLACE_DOMAIN (pyLower (pyStrip mp)) = none) →
        build_amazon_dp_url asin mp = []) ∧
      (∀ d, dictGet MARKETPLACE_DOMAIN (pyLower (pyStrip mp)) = some d →
        pyStrip asin ≠ [] →
        build_amazon_dp_url asin mp
          = "https://www.".toList ++ d ++ "/dp/".toList ++ pyStrip asin)) ∧
    build_amazon_dp_url "B001".toList "it".toList
      = "https://www.amazon.it/dp/B001".toList := by
  have hbody : ∀ asin mp, build_amazon_dp_url asin mp =
      (if pyStrip asin = [] ∨
          (dictGet MARKETPLACE_DOMAIN (pyLower (pyStrip mp))).getD [] = []
       then []
       else "https://www.".toList
         ++ (dictGet MARKETPLACE_DOMAIN (pyLower (pyStrip mp))).getD []
         ++ "/dp/".toList ++ pyStrip asin) := fun _ _ => rfl
  refine ⟨?_, by decide⟩
  intro asin mp
  constructor
  · rintro (h | h)
    · rw [hbody, if_pos (Or.inl h)]
    · rw [hbody, h]
      simp
  · intro d hd ha
    have hdne : d ≠ [] := marketplace_domain_values_ne_nil _ (dictGet_mem hd)
    rw [hbody, hd, if_neg (by simp [ha, hdne])]
    rfl

/-- Witness for C6: an unrecognized code, an empty ASIN, and a padded inputs
case, each discharged through `build_url_cases`. -/
theorem build_url_cases_witness :
    build_amazon_dp_url "B001".toList "zz".toList = [] ∧
    build_amazon_dp_url "   ".toList "it".toList = [] ∧
    build_amazon_dp_url " B001 ".toList "it".toList
      = "https://www.".toList ++ "amazon.it".toList ++ "/dp/".toList
        ++ pyStrip " B001 ".toList := by
  obtain ⟨h, _⟩ := build_url_cases
  exact ⟨(h _ _).1 (Or.inr (by decide)), (h _ _).1 (Or.inl (by decide)),
    (h _ _).2 "amazon.it".toList (by decide) (by decide)⟩

/-- Claim C7, counterexample: at the token `""` the code returns `""`, not a
string carrying the CDN prefix and the default extension as the claim's
unconditional description requires (that value is nonempty). -/
theorem normalize_image_token_counterexample :
    keepa_image_to_cdn_url [] = [] ∧
    "https://m.media-amazon.com/images/I/".toList
      ++ (pyStrip [] ++ ".jpg".toList) ≠ ([] : Str) := by decide

/-- Claim C7, amended: for a token whose trimmed form is nonempty,
`keepa_image_to_cdn_url` appends `".jpg"` exactly when the trimmed token
contains no dot and prefixes the fixed CDN base (so `"abc123"` maps to a URL
ending in `abc123.jpg` and `"abc123.png"` keeps its extension); a token that
trims to the empty string yields the empty string. -/
theorem normalize_image_token_spec :
    (∀ tok, (pyStrip tok = [] → keepa_image_to_cdn_url tok = []) ∧
      (pyStrip tok ≠ [] → keepa_image_to_cdn_url tok =
        "https://m.media-amazon.com/images/I/".toList ++
          (if '.' ∈ pyStrip tok then pyStrip tok
           else pyStrip tok ++ ".jpg".toList))) ∧
    keepa_image_to_cdn_url "abc123".toList
      = "https://m.media-amazon.com/images/I/abc123.jpg".toList ∧
    keepa_image_to_cdn_url "abc123.png".toList
      = "https://m.media-amazon.com/images/I/abc123.png".toList := by
  refine ⟨?_, by decide, by decide⟩
  intro tok
  have hbody : keepa_image_to_cdn_url tok =
      (if pyStrip tok = [] then []
       else "https://m.media-amazon.com/images/I/".toList ++
         (if '.' ∈ pyStrip tok then pyStrip tok
          else pyStrip tok ++ ".jpg".toList)) := rfl
  constructor
  · intro h
    rw [hbody, if_pos h]
  · intro h
    rw [hbody, if_neg h]

/-- Witness for C7 (amended) at a blank token and a padded dotted token. -/
theorem normalize_image_token_spec_witness :
    keepa_image_to_cdn_url "  ".toList = [] ∧
    keepa_image_to_cdn_url " x.y ".toList =
      "https://m.media-amazon.com/images/I/".toList ++
        (if '.' ∈ pyStrip " x.y ".toList then pyStrip " x.y ".toList
         else pyStrip " x.y ".toList ++ ".jpg".toList) := by
  obtain ⟨h, _, _⟩ := normalize_image_token_spec
  exact ⟨(h _).1 (by decide), (h _).2 (by decide)⟩

/-- Claim C1: the exported table is the original table with one appended
boolean column `MATCH`; row `i` carries the match-state entry for `i`, and an
index never present in the match map reads `false`. -/
theorem export_table_spec :
    ∀ (t : Table) (m : MatchState),
      (export_table t m).header = t.header ++ ["MATCH".toList] ∧
      (export_table t m).rows.length = t.rows.length ∧
      (∀ i r, t.rows[i]? = some r →
        (export_table t m).rows[i]? = some (r ++ [pyBoolStr (get_match m i)])) ∧
      (∀ i, i ∉ m.map Prod.fst → get_match m i = false) := by
  intro t m
  refine ⟨rfl, ?_, ?_, ?_⟩
  · simp [export_table, match_column]
  · intro i r hr
    have hi : i < t.rows.length := by
      by_contra hge
      rw [List.getElem?_eq_none (by omega)] at hr
      cases hr
    show ((t.rows.zip (match_column m t.rows.length)).map
      (fun q => q.1 ++ [pyBoolStr q.2]))[i]? = _
    have hz : (t.rows.zip (match_column m t.rows.length))[i]?
        = some (r, get_match m i) := by
      rw [List.getElem?_zip_eq_some]
      refine ⟨hr, ?_⟩
      rw [match_column, List.getElem?_map, List.getElem?_range hi]
      rfl
    rw [List.getElem?_map, hz]
    rfl
  · intro i hi
    unfold get_match
    rw [dictGet_eq_none_of_unset hi]
    rfl

/-- Witness for C1 on a two-row table with only row 0 set. -/
theorem export_table_spec_witness :
    (export_table (Table.mk ["a".toList] [["x".toList], ["y".toList]])
        [(0, true)]).rows[1]?
      = some (["y".toList] ++ [pyBoolStr (get_match [(0, true)] 1)]) ∧
    get_match [(0, true)] 5 = false := by
  obtain ⟨_, _, h3, h4⟩ :=
    export_table_spec (Table.mk ["a".toList] [["x".toList], ["y".toList]])
      [(0, true)]
  exact ⟨h3 1 ["y".toList] (by decide), h4 5 (by decide)⟩

/-- Claim C2: the exported CSV bytes are a pure function of the table and the
match-state values: two match maps that agree on every index produce
byte-identical output, so re-exporting with no intervening edits (the same
table and the same map) is byte-identical. -/
theorem export_pure_extensional :
    ∀ (t : Table) (m1 m2 : MatchState),
      (∀ i, get_match m1 i = get_match m2 i) →
      csv_bytes t m1 = csv_bytes t m2 := by
  intro t m1 m2 h
  have hf : get_match m1 = get_match m2 := funext h
  unfold csv_bytes export_table match_column
  rw [hf]

/-- Witness for C2: two differently-represented but equal match maps export
identically. -/
theorem export_pure_extensional_witness :
    csv_bytes (Table.mk ["a".toList] [["x".toList], ["y".toList]])
        [(0, true), (1, false)]
      = csv_bytes (Table.mk ["a".toList] [["x".toList], ["y".toList]])
        [(1, false), (0, true)] := by
  apply export_pure_extensional
  intro i
  match i with
  | 0 => rfl
  | 1 => rfl
  | n + 2 => rfl

/-- An ASIN of the batch with nonempty strip survives the cleaning
comprehension. -/
lemma clean_asins_mem {asins : List Str} {a : Str} (ha : a ∈ asins)
    (hne : pyStrip a ≠ []) : pyStrip a ∈ clean_asins asins := by
  unfold clean_asins
  apply List.mem_map_of_mem
  apply List.mem_filter.mpr
  refine ⟨ha, ?_⟩
  have h1 : a ≠ [] := by
    intro h
    rw [h] at hne
    exact hne (by decide)
  simp [List.isEmpty_iff, h1, hne]

/-- Claim C8: the image lookup never raises (it is a total function of its
abstracted collaborators), and with a missing credential (`client = none`) or
a failing API call, every ASIN of the batch that survives cleaning is mapped
to the empty string. -/
theorem keepa_fetch_degrades :
    ∀ asins marketplace client query,
      (client = none ∨
        (∃ e, query (clean_asins asins) (keepa_domain_code marketplace)
          = Except.error e)) →
      ∀ a ∈ asins, pyStrip a ≠ [] →
        dictGet (keepa_fetch_first_images asins marketplace client query)
          (pyStrip a) = some [] := by
  intro asins marketplace client query hfail a ha hane
  have hmem : pyStrip a ∈ clean_asins asins := clean_asins_mem ha hane
  have hne : clean_asins asins ≠ [] := List.ne_nil_of_mem hmem
  unfold keepa_fetch_first_images
  simp only []
  rw [if_neg hne]
  rcases hfail with hc | ⟨e, hq⟩
  · subst hc
    exact dictGet_map_pair _ hmem
  · rcases client with _ | c
    · exact dictGet_map_pair _ hmem
    · rw [hq]
      exact dictGet_map_pair _ hmem

/-- Witness for C8: a one-ASIN batch with no credential degrades to `""`. -/
theorem keepa_fetch_degrades_witness :
    dictGet (keepa_fetch_first_images ["B1".toList] "it".toList none
        (fun _ _ => Except.ok none)) (pyStrip "B1".toList) = some [] :=
  keepa_fetch_degrades ["B1".toList] "it".toList none
    (fun _ _ => Except.ok none) (Or.inl rfl) "B1".toList (by decide) (by decide)

/-- Claim C9: from a fresh stream the loader returns the comma parse when it
succeeds; when the comma parse fails it rewinds and returns the semicolon
parse of the full data (so the fallback succeeds whenever that parse is
well-formed); and it fails if and only if both parses fail. -/
theorem loader_fallback :
    ∀ (parseComma parseSemi : List Nat → Except Unit Table) (data : List Nat),
      (∀ t, parseComma data = Except.ok t →
        load_table parseComma parseSemi (ByteStream.mk data 0) = Except.ok t) ∧
      (∀ e, parseComma data = Except.error e →
        load_table parseComma parseSemi (ByteStream.mk data 0)
          = parseSemi data) ∧
      ((∃ e, load_table parseComma parseSemi (ByteStream.mk data 0)
          = Except.error e) ↔
        ((∃ e, parseComma data = Except.error e) ∧
          (∃ e, parseSemi data = Except.error e))) := by
  intro pc ps data
  have hbody : load_table pc ps (ByteStream.mk data 0) =
      match pc data with
      | .ok t => .ok t
      | .error _ => ps data := rfl
  refine ⟨?_, ?_, ?_⟩
  · intro t h
    rw [hbody, h]
  · intro e h
    rw [hbody, h]
  · rw [hbody]
    cases hc : pc data with
    | ok t => simp
    | error e =>
      constructor
      · intro h
        exact ⟨⟨e, rfl⟩, h⟩
      · intro h
        exact h.2

/-- Witness for C9: the comma parse fails, the semicolon parse succeeds, and
the loader returns the semicolon parse's table. -/
theorem loader_fallback_witness :
    load_table (fun _ => Except.error ())
        (fun _ => Except.ok (Table.mk [] [])) (ByteStream.mk [55] 0)
      = Except.ok (Table.mk [] []) :=
  (loader_fallback (fun _ => Except.error ())
    (fun _ => Except.ok (Table.mk [] [])) [55]).2.1 () rfl

/-- Finite facts about the case table: no lower-case letter is itself a key,
and neither side of any pair is whitespace. -/
lemma asciiLowerTable_facts :
    ∀ q ∈ asciiLowerTable, dictGet asciiLowerTable q.2 = none ∧
      pyWhitespace q.1 = false ∧ pyWhitespace q.2 = false := by decide

lemma lowerChar_idem (c : Char) : lowerChar (lowerChar c) = lowerChar c := by
  cases h : dictGet asciiLowerTable c with
  | none =>
    have hc : lowerChar c = c := by rw [lowerChar, h]; rfl
    rw [hc]
    exact hc
  | some d =>
    have hfacts := asciiLowerTable_facts _ (dictGet_mem h)
    have hc : lowerChar c = d := by rw [lowerChar, h]; rfl
    have hd : lowerChar d = d := by rw [lowerChar, hfacts.1]; rfl
    rw [hc, hd]

lemma pyWhitespace_lowerChar (c : Char) :
    pyWhitespace (lowerChar c) = pyWhitespace c := by
  cases h : dictGet asciiLowerTable c with
  | none =>
    have hc : lowerChar c = c := by rw [lowerChar, h]; rfl
    rw [hc]
  | some d =>
    have hfacts := asciiLowerTable_facts _ (dictGet_mem h)
    have hc : lowerChar c = d := by rw [lowerChar, h]; rfl
    rw [hc, hfacts.2.2, hfacts.2.1]

/-- A list with no leading `p`-run keeps that property after dropping a
`p`-run from its tail end. -/
lemma dropWhile_rdropWhile {α : Type} (p : α → Bool) (l : List α)
    (hl : l.dropWhile p = l) :
    (List.rdropWhile p l).dropWhile p = List.rdropWhile p l := by
  obtain ⟨r, hr⟩ := List.rdropWhile_prefix p l
  cases hu : List.rdropWhile p l with
  | nil => rfl
  | cons a u =>
    rw [hu, List.cons_append] at hr
    have hne : ¬ p a = true := by
      intro hp
      rw [← hr, List.dropWhile_cons_of_pos hp] at hl
      have hlen : (List.dropWhile p (u ++ r)).length ≤ (u ++ r).length :=
        List.IsSuffix.length_le (List.dropWhile_suffix p)
      rw [hl] at hlen
      simp at hlen
    exact List.dropWhile_cons_of_neg hne

/-- `pyStrip` output has no leading whitespace. -/
lemma dropWhile_pyStrip (s : Str) :
    (pyStrip s).dropWhile pyWhitespace = pyStrip s :=
  dropWhile_rdropWhile pyWhitespace (s.dropWhile pyWhitespace)
    (List.dropWhile_idempotent pyWhitespace s)

/-- `pyStrip` output has no trailing whitespace. -/
lemma rdropWhile_pyStrip (s : Str) :
    List.rdropWhile pyWhitespace (pyStrip s) = pyStrip s :=
  List.rdropWhile_idempotent pyWhitespace (s.dropWhile pyWhitespace)

/-- Dropping a run of a predicate invariant under `f` commutes with `map f`. -/
lemma dropWhile_map_invariant {α : Type} (p : α → Bool) (f : α → α)
    (hpf : ∀ c, p (f c) = p c) (l : List α) :
    (l.map f).dropWhile p = (l.dropWhile p).map f := by
  have hcomp : p ∘ f = p := funext hpf
  rw [List.dropWhile_map, hcomp]

/-- Stripping after lower-casing an already stripped string is the
identity. -/
lemma pyStrip_pyLower_pyStrip (s : Str) :
    pyStrip (pyLower (pyStrip s)) = pyLower (pyStrip s) := by
  have hrev : (pyStrip s).reverse.dropWhile pyWhitespace
      = (pyStrip s).reverse := by
    have h := congrArg List.reverse (rdropWhile_pyStrip s)
    rw [List.rdropWhile, List.reverse_reverse] at h
    exact h
  show List.rdropWhile pyWhitespace
      (List.dropWhile pyWhitespace (pyLower (pyStrip s))) = pyLower (pyStrip s)
  simp only [pyLower]
  rw [dropWhile_map_invariant _ _ pyWhitespace_lowerChar, dropWhile_pyStrip]
  show (((pyStrip s).map lowerChar).reverse.dropWhile pyWhitespace).reverse = _
  rw [← List.map_reverse, dropWhile_map_invariant _ _ pyWhitespace_lowerChar,
    hrev, List.map_reverse, List.reverse_reverse]

lemma pyLower_idem (s : Str) : pyLower (pyLower s) = pyLower s := by
  simp only [pyLower]
  rw [List.map_map]
  have hcomp : lowerChar ∘ lowerChar = lowerChar := funext lowerChar_idem
  rw [hcomp]

/-- The marketplace-code normalization `lower ∘ strip` is idempotent. -/
lemma normalize_mp_idem (mp : Str) :
    pyLower (pyStrip (pyLower (pyStrip mp))) = pyLower (pyStrip mp) := by
  rw [pyStrip_pyLower_pyStrip, pyLower_idem]

/-- The body of `build_amazon_dp_url` with its let-bindings inlined. -/
lemma build_amazon_dp_url_eq (asin mp : Str) :
    build_amazon_dp_url asin mp =
      (if pyStrip asin = [] ∨
          (dictGet MARKETPLACE_DOMAIN (pyLower (pyStrip mp))).getD [] = []
       then []
       else "https://www.".toList
         ++ (dictGet MARKETPLACE_DOMAIN (pyLower (pyStrip mp))).getD []
         ++ "/dp/".toList ++ pyStrip asin) := rfl

/-- Claim C10: `build_amazon_dp_url` is insensitive to the case and the
surrounding whitespace of the marketplace code: passing `lower(trim(mp))`
gives the same result as passing `mp`. -/
theorem build_url_mp_insensitive :
    ∀ asin mp, build_amazon_dp_url asin mp
      = build_amazon_dp_url asin (pyLower (pyStrip mp)) := by
  intro asin mp
  rw [build_amazon_dp_url_eq, build_amazon_dp_url_eq, normalize_mp_idem]

example : build_amazon_dp_url "B001".toList "it".toList
    = "https://www.amazon.it/dp/B001".toList := by decide

example : keepa_image_to_cdn_url "abc123".toList
    = "https://m.media-amazon.com/images/I/abc123.jpg".toList := by decide

example : total_pages 0 10 = 1 ∧ total_pages 21 10 = 3 := by decide

example :
    csv_bytes (Table.mk ["a".toList] [["x".toList]]) empty_match
      = "a,MATCH\nx,False\n".toList.flatMap utf8Char := by decide
